import Mathlib

/-!
Verification development for the conplot chart library (src/src/lib.rs).

The embedding models `f32` values by the type `F32` below: a finite value is
carried as an exact rational, and the IEEE special values (+inf, -inf, NaN)
are explicit constructors.  All operations the library performs on floats
(subtraction, multiplication, division, rounding, `f32::min` / `f32::max`,
the saturating `as u32` cast) are given their IEEE-754 semantics at this
granularity; finite arithmetic is exact rather than rounded, which is
faithful for every concrete value appearing in the claims (the library
itself only compares, min/maxes, and forms one affine expression).
Signed zero is not modelled (the zeros that arise here are all `x - x`,
which is +0 in IEEE round-to-nearest, and the division in the model by that
zero agrees with division by +0).
-/

namespace Conplot

/-- Model of an `f32` value: an exact finite rational or an IEEE special. -/
inductive F32 where
  | fin (q : ℚ)
  | pinf
  | ninf
  | nan
deriving DecidableEq

namespace F32

/-- IEEE comparison a <= b as a Boolean: NaN is incomparable to everything. -/
def ble : F32 → F32 → Bool
  | nan, _ => false
  | _, nan => false
  | ninf, _ => true
  | pinf, pinf => true
  | pinf, fin _ => false
  | fin _, pinf => true
  | fin _, ninf => false
  | pinf, ninf => false
  | fin a, fin b => decide (a ≤ b)

/-- Negation of an f32 value. -/
def neg : F32 → F32
  | fin q => fin (-q)
  | pinf => ninf
  | ninf => pinf
  | nan => nan

/-- IEEE addition (exact on finite values). -/
def add : F32 → F32 → F32
  | nan, _ => nan
  | _, nan => nan
  | pinf, ninf => nan
  | ninf, pinf => nan
  | pinf, _ => pinf
  | _, pinf => pinf
  | ninf, _ => ninf
  | _, ninf => ninf
  | fin a, fin b => fin (a + b)

/-- IEEE subtraction, defined as addition of the negation. -/
def sub (a b : F32) : F32 := add a (neg b)

/-- IEEE multiplication (exact on finite values); inf * 0 is NaN. -/
def mul : F32 → F32 → F32
  | nan, _ => nan
  | _, nan => nan
  | pinf, pinf => pinf
  | pinf, ninf => ninf
  | ninf, pinf => ninf
  | ninf, ninf => pinf
  | pinf, fin q => if q = 0 then nan else if 0 < q then pinf else ninf
  | fin q, pinf => if q = 0 then nan else if 0 < q then pinf else ninf
  | ninf, fin q => if q = 0 then nan else if 0 < q then ninf else pinf
  | fin q, ninf => if q = 0 then nan else if 0 < q then ninf else pinf
  | fin a, fin b => fin (a * b)

/-- IEEE division (exact on finite values); 0/0 and inf/inf are NaN, and a
nonzero finite value divided by (positive) zero is a signed infinity. -/
def div : F32 → F32 → F32
  | nan, _ => nan
  | _, nan => nan
  | pinf, pinf => nan
  | pinf, ninf => nan
  | ninf, pinf => nan
  | ninf, ninf => nan
  | pinf, fin q => if 0 ≤ q then pinf else ninf
  | ninf, fin q => if 0 ≤ q then ninf else pinf
  | fin _, pinf => fin 0
  | fin _, ninf => fin 0
  | fin a, fin b =>
    if b = 0 then (if a = 0 then nan else if 0 < a then pinf else ninf)
    else fin (a / b)

/-- Rounding of a rational to the nearest integer, ties away from zero,
matching the semantics of the f32::round method of Rust. -/
def roundQ (q : ℚ) : ℤ :=
  if 0 ≤ q then ⌊q + 1/2⌋ else -⌊-q + 1/2⌋

/-- The f32::round method of Rust: nearest integer, ties away from zero; specials kept. -/
def round : F32 → F32
  | fin q => fin ((roundQ q : ℤ) : ℚ)
  | pinf => pinf
  | ninf => ninf
  | nan => nan

/-- The saturating float-to-u32 cast of Rust (the semantics of the cast
written as u32 in the source): NaN becomes 0, values below 0 become 0, values at or above
2^32 become 2^32 - 1, and other finite values are truncated toward zero. -/
def toU32sat : F32 → Nat
  | fin q => if q < 0 then 0 else min (Int.toNat ⌊q⌋) 4294967295
  | pinf => 4294967295
  | ninf => 0
  | nan => 0

/-- The f32::min method of Rust: if one argument is NaN, the other is returned. -/
def fmin (a b : F32) : F32 :=
  if a = nan then b else if b = nan then a else if ble a b then a else b

/-- The f32::max method of Rust: if one argument is NaN, the other is returned. -/
def fmax (a b : F32) : F32 :=
  if a = nan then b else if b = nan then a else if ble b a then a else b

/-- Boolean NaN test. -/
def isNaN : F32 → Bool
  | nan => true
  | _ => false

end F32

/-- Modelled from the spec: the source declares `pub mod scale` but the file
scale.rs is not part of the repository snapshot, so the `Scale` type is
rebuilt from spec section 4.1.  It is a pure pair of intervals: the source
interval (smin, smax) and the target interval (tmin, tmax); construction
never validates. -/
structure Scale where
  smin : F32
  smax : F32
  tmin : F32
  tmax : F32

/-- Modelled from the spec: `Scale::linear(v)` computes
target.min + (v - source.min) * (target.max - target.min) / (source.max - source.min),
with no clamping, and a degenerate source interval yields a non-finite
result rather than a crash (spec section 4.1). -/
def Scale.linear (s : Scale) (v : F32) : F32 :=
  F32.add s.tmin
    (F32.div (F32.mul (F32.sub v s.smin) (F32.sub s.tmax s.tmin))
      (F32.sub s.smax s.smin))

/-- An 8-bit RGB color, from `struct RGB8` in the source.  Channels are
naturals (always below 256 when produced by the parser). -/
structure RGB8 where
  r : Nat
  g : Nat
  b : Nat
deriving DecidableEq

/-- Hexadecimal digit test matching the char::to_digit(16) domain of Rust:
ASCII 0-9, a-f, A-F (compared through the scalar value of the character). -/
def isHexChar (c : Char) : Bool :=
  (48 ≤ c.toNat && c.toNat ≤ 57) || (97 ≤ c.toNat && c.toNat ≤ 102) ||
    (65 ≤ c.toNat && c.toNat ≤ 70)

/-- Value of one hexadecimal digit, matching char::to_digit(16) of Rust. -/
def hexVal? (c : Char) : Option Nat :=
  if 48 ≤ c.toNat ∧ c.toNat ≤ 57 then some (c.toNat - 48)
  else if 97 ≤ c.toNat ∧ c.toNat ≤ 102 then some (c.toNat - 87)
  else if 65 ≤ c.toNat ∧ c.toNat ≤ 70 then some (c.toNat - 55)
  else none

/-- Accumulating digit loop of u8::from_str_radix with radix 16. -/
def parseHexDigits : List Char → Nat → Option Nat
  | [], acc => some acc
  | c :: rest, acc =>
    match hexVal? c with
    | none => none
    | some v => parseHexDigits rest (16 * acc + v)

/-- The function u8::from_str_radix(s, 16) of Rust: an empty string is an error, a leading
'+' is consumed (a bare "+" is an error; '-' is not a digit for an unsigned
type), then the digits accumulate and the result must fit in a u8.  Checking
the final value against 256 is equivalent to the per-step overflow check of Rust
because the accumulated value never decreases. -/
def fromStrRadix16u8 (s : List Char) : Option Nat :=
  match s with
  | [] => none
  | c :: rest =>
    if c = '+' then
      if rest = [] then none
      else (parseHexDigits rest 0).bind (fun v => if v < 256 then some v else none)
    else (parseHexDigits (c :: rest) 0).bind (fun v => if v < 256 then some v else none)

/-- RGB8::new_hex_str from the source, with panics modelled as `none`:
the original string must have 6 or 7 characters (counted before any
stripping), then every '#' is removed (`replace("#", "")`), and the byte
slices [0..2], [2..4], [4..6] are parsed as hex u8 values, each parse
unwrapped.  A slice reaching past the end of the shortened string is an
out-of-bounds panic, hence `none`; for the ASCII inputs on which the
function can succeed, byte indices and character indices coincide. -/
def RGB8.new_hex_str (s : List Char) : Option RGB8 :=
  if s.length < 6 ∨ 7 < s.length then none
  else
    let t := s.filter (fun c => c != '#')
    if 6 ≤ t.length then
      match fromStrRadix16u8 (t.take 2), fromStrRadix16u8 ((t.drop 2).take 2),
          fromStrRadix16u8 ((t.drop 4).take 2) with
      | some r, some g, some b => some ⟨r, g, b⟩
      | _, _, _ => none
    else none

/-- The success condition exactly as claim C1 states it: strip one optional
leading '#', then require exactly 6 hexadecimal characters. -/
def claimedHexOk (s : List Char) : Bool :=
  let t := match s with
    | '#' :: rest => rest
    | _ => s
  t.length == 6 && t.all isHexChar

/-- A two-character group accepted by u8::from_str_radix(_, 16): two hex
digits, or a '+' sign followed by one hex digit. -/
def validHexPair : List Char → Bool
  | [c1, c2] => (isHexChar c1 && isHexChar c2) || (c1 == '+' && isHexChar c2)
  | _ => false

/-- The axis ranging policy of the source (enum ChartRangeMethod). -/
inductive ChartRangeMethod where
  | AutoRange
  | FixedRange
deriving DecidableEq

/-- The kinds of plotted data (enum Shape). -/
inductive Shape where
  | points
  | lines
  | steps
  | bars
deriving DecidableEq

/-- The Chart state from the source.  The canvas (an external dot-matrix
backend) and the tick-formatting closures are omitted: no claim depends on
them, and the drawing calls issued to the canvas are modelled explicitly as
the DrawCmd list produced by `figure`. -/
structure Chart where
  width : Nat
  height : Nat
  xmin : F32
  xmax : F32
  x_ranging : ChartRangeMethod
  ymin : F32
  ymax : F32
  y_ranging : ChartRangeMethod
  data_points : List (F32 × F32)
  appearance : List (Shape × Option RGB8)
  show_axis : Bool
deriving DecidableEq

/-- Chart::new: panics (modelled as none) when width or height is below 32;
otherwise both axes are auto-ranged and the bounds start at the no-data
sentinels +inf / -inf. -/
def Chart.new (width height : Nat) : Option Chart :=
  if width < 32 then none
  else if height < 32 then none
  else some
    { width := width, height := height,
      xmin := F32.pinf, xmax := F32.ninf, x_ranging := ChartRangeMethod.AutoRange,
      ymin := F32.pinf, ymax := F32.ninf, y_ranging := ChartRangeMethod.AutoRange,
      data_points := [], appearance := [], show_axis := true }

/-- Chart::with_range: same size check, fixed bounds taken verbatim. -/
def Chart.with_range (width height : Nat) (xmin xmax ymin ymax : F32) : Option Chart :=
  if width < 32 then none
  else if height < 32 then none
  else some
    { width := width, height := height,
      xmin := xmin, xmax := xmax, x_ranging := ChartRangeMethod.FixedRange,
      ymin := ymin, ymax := ymax, y_ranging := ChartRangeMethod.FixedRange,
      data_points := [], appearance := [], show_axis := true }

/-- Chart::rescale_x: fold the x values of the dataset with f32::min starting
from +inf (and with f32::max starting from -inf), then merge into the
current bounds with f32::min / f32::max. -/
def Chart.rescale_x (c : Chart) : Chart :=
  let xmin := (c.data_points.map Prod.fst).foldl F32.fmin F32.pinf
  let xmax := (c.data_points.map Prod.fst).foldl F32.fmax F32.ninf
  { c with xmin := F32.fmin c.xmin xmin, xmax := F32.fmax c.xmax xmax }

/-- Chart::rescale_y, analogous on the y components. -/
def Chart.rescale_y (c : Chart) : Chart :=
  let ymin := (c.data_points.map Prod.snd).foldl F32.fmin F32.pinf
  let ymax := (c.data_points.map Prod.snd).foldl F32.fmax F32.ninf
  { c with ymin := F32.fmin c.ymin ymin, ymax := F32.fmax c.ymax ymax }

/-- Plot::data: replaces the dataset wholesale. -/
def Chart.data (c : Chart) (data_points : List (F32 × F32)) : Chart :=
  { c with data_points := data_points }

/-- Plot::lineplot: push the layer, then rescale each axis whose policy is
AutoRange. -/
def Chart.lineplot (c : Chart) (shape : Shape) (color : Option RGB8) : Chart :=
  let c1 := { c with appearance := c.appearance ++ [(shape, color)] }
  let c2 := if c1.x_ranging = ChartRangeMethod.AutoRange then c1.rescale_x else c1
  if c2.y_ranging = ChartRangeMethod.AutoRange then c2.rescale_y else c2

/-- Plot::hide_axis. -/
def Chart.hide_axis (c : Chart) : Chart :=
  { c with show_axis := false }

/-- The x scale built inside Chart::figure:
Scale::new(xmin..xmax, 0.0..width as f32). -/
def Chart.xScale (c : Chart) : Scale :=
  ⟨c.xmin, c.xmax, F32.fin 0, F32.fin (c.width : ℚ)⟩

/-- The y scale built inside Chart::figure. -/
def Chart.yScale (c : Chart) : Scale :=
  ⟨c.ymin, c.ymax, F32.fin 0, F32.fin (c.height : ℚ)⟩

/-- The screen x coordinate of a data x value in Chart::figure:
`x_scale.linear(x).round() as u32`. -/
def Chart.projI (c : Chart) (x : F32) : Nat :=
  (c.xScale.linear x).round.toU32sat

/-- The screen y coordinate (before the downward flip) of a data y value:
`y_scale.linear(y).round() as u32`. -/
def Chart.projJ (c : Chart) (y : F32) : Nat :=
  (c.yScale.linear y).round.toU32sat

/-- The filter_map closure of Chart::figure: keep the point when i <= width
and j <= height, flipping y so the canvas row grows downward. -/
def Chart.projectPoint (c : Chart) (p : F32 × F32) : Option (Nat × Nat) :=
  if c.projI p.1 ≤ c.width ∧ c.projJ p.2 ≤ c.height then
    some (c.projI p.1, c.height - c.projJ p.2)
  else none

/-- The vector of included projected points of Chart::figure. -/
def Chart.projectedPoints (c : Chart) : List (Nat × Nat) :=
  c.data_points.filterMap c.projectPoint

/-- One drawing call issued to the canvas backend: canvas.set, or
render_line (canvas.line / canvas.line_colored, depending on the color). -/
inductive DrawCmd where
  | set (x y : Nat)
  | line (x1 y1 x2 y2 : Nat) (color : Option RGB8)
deriving DecidableEq

/-- The Shape::Lines loop of Chart::figure over points.windows(2). -/
def linesLoop (color : Option RGB8) : List (Nat × Nat) → List DrawCmd
  | (x1, y1) :: (x2, y2) :: rest =>
    DrawCmd.line x1 y1 x2 y2 color :: linesLoop color ((x2, y2) :: rest)
  | _ => []

/-- The Shape::Steps loop of Chart::figure over points.windows(2). -/
def stepsLoop (color : Option RGB8) : List (Nat × Nat) → List DrawCmd
  | (x1, y1) :: (x2, y2) :: rest =>
    DrawCmd.line x1 y2 x2 y2 color :: DrawCmd.line x1 y1 x1 y2 color ::
      stepsLoop color ((x2, y2) :: rest)
  | _ => []

/-- The Shape::Bars loop of Chart::figure over points.windows(2). -/
def barsLoop (height : Nat) (color : Option RGB8) : List (Nat × Nat) → List DrawCmd
  | (x1, y1) :: (x2, y2) :: rest =>
    DrawCmd.line x1 y2 x2 y2 color :: DrawCmd.line x1 y1 x1 y2 color ::
      DrawCmd.line x1 height x1 y1 color :: DrawCmd.line x2 height x2 y2 color ::
      barsLoop height color ((x2, y2) :: rest)
  | _ => []

/-- Chart::figure as the list of drawing calls it issues, in order. -/
def Chart.figure (c : Chart) (shape : Shape) (color : Option RGB8) : List DrawCmd :=
  let points := c.projectedPoints
  match shape with
  | Shape.points => points.map (fun p => DrawCmd.set p.1 p.2)
  | Shape.lines => linesLoop color points
  | Shape.steps => stepsLoop color points
  | Shape.bars => barsLoop c.height color points

/-- The consecutive pairs of a list, as produced by windows(2). -/
def pairsOf {α : Type} : List α → List (α × α)
  | a :: b :: rest => (a, b) :: pairsOf (b :: rest)
  | _ => []

/-- Concatenation of the images of a list-valued function. -/
def concatMap {α β : Type} (f : α → List β) : List α → List β
  | [] => []
  | x :: xs => f x ++ concatMap f xs

/-- The Steps geometry for one pair, as claim C9 describes it: a horizontal
segment at the height of p2 from p1.x to p2.x, then a vertical segment at p1.x
from p1.y to p2.y. -/
def specStepSegments (color : Option RGB8) (p : (Nat × Nat) × (Nat × Nat)) : List DrawCmd :=
  [DrawCmd.line p.1.1 p.2.2 p.2.1 p.2.2 color,
   DrawCmd.line p.1.1 p.1.2 p.1.1 p.2.2 color]

/-- The Bars geometry for one pair, as claim C9 describes it: the Steps
geometry plus two vertical drop-lines, from p1.x and from p2.x, down to the
canvas bottom edge. -/
def specBarSegments (height : Nat) (color : Option RGB8)
    (p : (Nat × Nat) × (Nat × Nat)) : List DrawCmd :=
  specStepSegments color p ++
    [DrawCmd.line p.1.1 height p.1.1 p.1.2 color,
     DrawCmd.line p.2.1 height p.2.1 p.2.2 color]

/-- One mutation of a chart through the public surface: replace the dataset,
append a layer, or hide the axis. -/
inductive Op where
  | setData (pts : List (F32 × F32))
  | addLayer (shape : Shape) (color : Option RGB8)
  | hideAxis
deriving DecidableEq

/-- Application of one operation. -/
def applyOp (c : Chart) : Op → Chart
  | Op.setData pts => c.data pts
  | Op.addLayer s col => c.lineplot s col
  | Op.hideAxis => c.hide_axis

/-- Application of a sequence of operations, first to last. -/
def applyOps (c : Chart) (ops : List Op) : Chart :=
  ops.foldl applyOp c

/-- Fallback chart value used only to extract charts from the optional
constructors in concrete witnesses (it is never actually the result). -/
def chart0 : Chart :=
  { width := 0, height := 0,
    xmin := F32.nan, xmax := F32.nan, x_ranging := ChartRangeMethod.AutoRange,
    ymin := F32.nan, ymax := F32.nan, y_ranging := ChartRangeMethod.AutoRange,
    data_points := [], appearance := [], show_axis := true }

/-- A chart with a degenerate x range (xmin = xmax = 0), built through
Chart::with_range; used to exhibit a NaN scaled coordinate. -/
def chartC2 : Chart :=
  (Chart.with_range 32 32 (F32.fin 0) (F32.fin 0) (F32.fin 0) (F32.fin 1)).getD chart0

/-- A fixed-range chart used for the bounds-immutability witness. -/
def chartC3 : Chart :=
  (Chart.with_range 32 32 (F32.fin 1) (F32.fin 2) (F32.fin 3) (F32.fin 4)).getD chart0

/-- A fresh auto-ranging chart used for the monotonicity witness. -/
def chartC4 : Chart := (Chart.new 32 32).getD chart0

/-- A fresh auto-ranging chart used for the concrete rescale witness. -/
def chartC5 : Chart := (Chart.new 120 60).getD chart0

/-- A fresh auto-ranging chart used for the empty-rescale witness. -/
def chartC6 : Chart := (Chart.new 32 32).getD chart0

/-- A unit-range chart mapping data x=1 to canvas 32, used for the
boundary-inclusion claim. -/
def chartC8 : Chart :=
  (Chart.with_range 32 32 (F32.fin 0) (F32.fin 1) (F32.fin 0) (F32.fin 1)).getD chart0

/-- A unit-range chart used for the negative-saturation claim. -/
def chartC10 : Chart :=
  (Chart.with_range 32 32 (F32.fin 0) (F32.fin 1) (F32.fin 0) (F32.fin 1)).getD chart0

/-! Helper lemmas about the hex parser. -/

theorem hexVal_isSome (c : Char) : (hexVal? c).isSome = isHexChar c := by
  unfold hexVal? isHexChar
  split_ifs with h1 h2 h3 <;> simp_all

theorem hexVal_lt (c : Char) (v : Nat) (h : hexVal? c = some v) : v < 16 := by
  unfold hexVal? at h
  split_ifs at h with h1 h2 h3 <;> simp_all <;> omega

theorem fromStrRadix_pair (c1 c2 : Char) :
    (fromStrRadix16u8 [c1, c2]).isSome = validHexPair [c1, c2] := by
  by_cases hp : c1 = '+'
  · subst hp
    have hplus : isHexChar '+' = false := by decide
    cases hv : hexVal? c2 with
    | none =>
      have h2 : isHexChar c2 = false := by rw [← hexVal_isSome, hv]; rfl
      simp [fromStrRadix16u8, parseHexDigits, validHexPair, hv, h2, hplus]
    | some v =>
      have h2 : isHexChar c2 = true := by rw [← hexVal_isSome, hv]; rfl
      have hlt : v < 256 := by have := hexVal_lt c2 v hv; omega
      simp [fromStrRadix16u8, parseHexDigits, validHexPair, hv, h2, hplus, hlt]
  · have hne : (c1 == '+') = false := by simp [hp]
    cases hv1 : hexVal? c1 with
    | none =>
      have h1 : isHexChar c1 = false := by rw [← hexVal_isSome, hv1]; rfl
      simp [fromStrRadix16u8, parseHexDigits, validHexPair, hp, hv1, h1, hne]
    | some v1 =>
      have h1 : isHexChar c1 = true := by rw [← hexVal_isSome, hv1]; rfl
      cases hv2 : hexVal? c2 with
      | none =>
        have h2 : isHexChar c2 = false := by rw [← hexVal_isSome, hv2]; rfl
        simp [fromStrRadix16u8, parseHexDigits, validHexPair, hp, hv1, hv2, h1, h2, hne]
      | some v2 =>
        have h2 : isHexChar c2 = true := by rw [← hexVal_isSome, hv2]; rfl
        have hlt : 16 * v1 + v2 < 256 := by
          have := hexVal_lt c1 v1 hv1; have := hexVal_lt c2 v2 hv2; omega
        simp [fromStrRadix16u8, parseHexDigits, validHexPair, hp, hv1, hv2, h1, h2, hne, hlt]

theorem fromStrRadix_len2 (l : List Char) (h : l.length = 2) :
    (fromStrRadix16u8 l).isSome = validHexPair l := by
  rcases l with _ | ⟨c1, _ | ⟨c2, _ | ⟨c3, l⟩⟩⟩ <;> simp_all
  exact fromStrRadix_pair c1 c2

/-- C1 counterexample: the 7-character all-hex string "ABCDEF5" has no '#'
at all, so after stripping an optional leading '#' it still has 7
characters and the claim requires the constructor to fail; the code instead
succeeds, parsing the first six characters and ignoring the seventh. -/
theorem new_hex_str_claim_cex :
    (RGB8.new_hex_str ("ABCDEF5".toList)).isSome = true ∧
      claimedHexOk ("ABCDEF5".toList) = false := by
  exact ⟨by decide, by decide⟩

/-- C1 (amended): RGB8::new_hex_str succeeds exactly when the input string
has 6 or 7 characters and, after removing every '#' character (not only a
leading one), at least 6 characters remain whose three leading 2-character
groups each parse as a hexadecimal byte (two hex digits, or a '+' sign
followed by one hex digit); any character beyond the sixth remaining one is
ignored. -/
theorem new_hex_str_success_iff (s : List Char) :
    (RGB8.new_hex_str s).isSome = true ↔
      ((s.length = 6 ∨ s.length = 7) ∧
        6 ≤ (s.filter (fun c => c != '#')).length ∧
        validHexPair ((s.filter (fun c => c != '#')).take 2) = true ∧
        validHexPair (((s.filter (fun c => c != '#')).drop 2).take 2) = true ∧
        validHexPair (((s.filter (fun c => c != '#')).drop 4).take 2) = true) := by
  unfold RGB8.new_hex_str
  by_cases hlen : s.length < 6 ∨ 7 < s.length
  · rw [if_pos hlen]
    constructor
    · intro h; simp at h
    · rintro ⟨h1, -⟩
      rcases hlen with hlen | hlen <;> rcases h1 with h1 | h1 <;> omega
  · rw [if_neg hlen]
    have hlen2 : s.length = 6 ∨ s.length = 7 := by omega
    by_cases h6 : 6 ≤ (s.filter (fun c => c != '#')).length
    · simp only [if_pos h6]
      have l1 : ((s.filter (fun c => c != '#')).take 2).length = 2 := by
        rw [List.length_take]; omega
      have l2 : (((s.filter (fun c => c != '#')).drop 2).take 2).length = 2 := by
        rw [List.length_take, List.length_drop]; omega
      have l3 : (((s.filter (fun c => c != '#')).drop 4).take 2).length = 2 := by
        rw [List.length_take, List.length_drop]; omega
      rcases hr : fromStrRadix16u8 ((s.filter (fun c => c != '#')).take 2) with _ | r
      · have := (fromStrRadix_len2 _ l1).symm.trans (by rw [hr])
        simp [hr, hlen2, h6, this]
      · rcases hg : fromStrRadix16u8 (((s.filter (fun c => c != '#')).drop 2).take 2) with _ | g
        · have := (fromStrRadix_len2 _ l2).symm.trans (by rw [hg])
          simp [hr, hg, hlen2, h6, this]
        · rcases hb : fromStrRadix16u8 (((s.filter (fun c => c != '#')).drop 4).take 2) with _ | b
          · have := (fromStrRadix_len2 _ l3).symm.trans (by rw [hb])
            simp [hr, hg, hb, hlen2, h6, this]
          · have v1 := (fromStrRadix_len2 _ l1).symm.trans (by rw [hr])
            have v2 := (fromStrRadix_len2 _ l2).symm.trans (by rw [hg])
            have v3 := (fromStrRadix_len2 _ l3).symm.trans (by rw [hb])
            simp [hr, hg, hb, hlen2, h6, v1, v2, v3]
    · simp only [if_neg h6]
      constructor
      · intro h; simp at h
      · rintro ⟨-, hb, -⟩; exact absurd hb h6

/-- C2 counterexample: with the degenerate fixed x range (0, 0) the scaled
x coordinate of the data point (0, 1/2) is NaN (a non-finite value), so the
claim requires the point to be excluded; the saturating cast as u32 turns NaN
into 0, the filter keeps the point, and it is drawn at canvas (0, 16). -/
theorem point_exclusion_claim_cex :
    (Chart.with_range 32 32 (F32.fin 0) (F32.fin 0) (F32.fin 0) (F32.fin 1)).map
        (fun c => ((c.xScale.linear (F32.fin 0)).isNaN,
          c.projectPoint (F32.fin 0, F32.fin (1/2)))) =
      some (true, some (0, 16)) := by
  norm_num [Chart.with_range, Chart.xScale, Chart.yScale, Chart.projI, Chart.projJ,
    Chart.projectPoint, Scale.linear, F32.add, F32.sub, F32.mul, F32.div, F32.neg,
    F32.round, F32.roundQ, F32.toU32sat, F32.isNaN]
  omega

/-- C2 (amended): a data point is excluded exactly when its rounded scaled
x, converted by the saturating float-to-u32 cast, exceeds width, or its
converted rounded scaled y exceeds height.  Among non-finite scaled
coordinates only +infinity forces exclusion (it converts to u32::MAX =
4294967295, above any dimension smaller than that); NaN and -infinity
convert to 0 and never cause exclusion. -/
theorem point_exclusion_characterization (c : Chart) (x y : F32) :
    (c.projectPoint (x, y) = none ↔ c.width < c.projI x ∨ c.height < c.projJ y) ∧
    ((c.xScale.linear x).isNaN = true → c.projI x = 0) ∧
    ((c.yScale.linear y).isNaN = true → c.projJ y = 0) ∧
    (c.xScale.linear x = F32.ninf → c.projI x = 0) ∧
    (c.yScale.linear y = F32.ninf → c.projJ y = 0) ∧
    (c.xScale.linear x = F32.pinf → c.width < 4294967295 → c.projectPoint (x, y) = none) ∧
    (c.yScale.linear y = F32.pinf → c.height < 4294967295 → c.projectPoint (x, y) = none) := by
  have hnan : ∀ a : F32, a.isNaN = true → a = F32.nan := by
    intro a ha; cases a <;> simp_all [F32.isNaN]
  have hproj : c.projectPoint (x, y) =
      if c.projI x ≤ c.width ∧ c.projJ y ≤ c.height then
        some (c.projI x, c.height - c.projJ y)
      else none := rfl
  refine ⟨?_, ?_, ?_, ?_, ?_, ?_, ?_⟩
  · rw [hproj]
    split_ifs with hcond
    · simp only [reduceCtorEq, false_iff]
      omega
    · simp only [true_iff]
      omega
  · intro h; unfold Chart.projI; rw [hnan _ h]; rfl
  · intro h; unfold Chart.projJ; rw [hnan _ h]; rfl
  · intro h; unfold Chart.projI; rw [h]; rfl
  · intro h; unfold Chart.projJ; rw [h]; rfl
  · intro h hw
    have hi : c.projI x = 4294967295 := by unfold Chart.projI; rw [h]; rfl
    rw [hproj, if_neg]
    rintro ⟨h1, -⟩
    omega
  · intro h hh
    have hj : c.projJ y = 4294967295 := by unfold Chart.projJ; rw [h]; rfl
    rw [hproj, if_neg]
    rintro ⟨-, h2⟩
    omega

/-- Witness for the amended exclusion characterization: in chartC2 the
scaled x of the point (0, 1/2) is NaN and its converted coordinate is 0. -/
theorem point_exclusion_witness : chartC2.projI (F32.fin 0) = 0 :=
  (point_exclusion_characterization chartC2 (F32.fin 0) (F32.fin (1/2))).2.1
    (by norm_num [chartC2, chart0, Chart.with_range, Chart.xScale, Scale.linear,
      F32.add, F32.sub, F32.mul, F32.div, F32.neg, F32.isNaN])

/-- C8 counterexample: in a unit-range 32x32 chart the point (1, 2) has
rounded scaled x equal to exactly the canvas width (32), yet it is excluded,
because its rounded scaled y (64) exceeds the height; the claim as stated
requires inclusion whenever either coordinate equals its bound. -/
theorem boundary_claim_cex :
    (Chart.with_range 32 32 (F32.fin 0) (F32.fin 1) (F32.fin 0) (F32.fin 1)).map
        (fun c => (c.projI (F32.fin 1), c.projectPoint (F32.fin 1, F32.fin 2))) =
      some (32, none) := by
  norm_num [Chart.with_range, Chart.xScale, Chart.yScale, Chart.projI, Chart.projJ,
    Chart.projectPoint, Scale.linear, F32.add, F32.sub, F32.mul, F32.div, F32.neg,
    F32.round, F32.roundQ, F32.toU32sat]
  omega

/-- C8 (amended): the inclusion test is boundary-inclusive — a point whose
rounded scaled x equals exactly the width is included provided its rounded
scaled y does not exceed the height, and symmetrically; the boundary value
itself never causes exclusion. -/
theorem boundary_points_included (c : Chart) (x y : F32) :
    (c.projI x = c.width → c.projJ y ≤ c.height →
      c.projectPoint (x, y) = some (c.projI x, c.height - c.projJ y)) ∧
    (c.projJ y = c.height → c.projI x ≤ c.width →
      c.projectPoint (x, y) = some (c.projI x, c.height - c.projJ y)) := by
  have hproj : c.projectPoint (x, y) =
      if c.projI x ≤ c.width ∧ c.projJ y ≤ c.height then
        some (c.projI x, c.height - c.projJ y)
      else none := rfl
  constructor
  · intro hi hj
    rw [hproj, if_pos ⟨le_of_eq hi, hj⟩]
  · intro hj hi
    rw [hproj, if_pos ⟨hi, le_of_eq hj⟩]

/-- Witness for the amended boundary claim: in chartC8 the point (1, 1/2)
projects to rounded x = 32 = width and rounded y = 16 <= 32, and it is
included, at canvas (32, 16). -/
theorem boundary_points_included_witness :
    chartC8.projectPoint (F32.fin 1, F32.fin (1/2)) =
      some (chartC8.projI (F32.fin 1), chartC8.height - chartC8.projJ (F32.fin (1/2))) :=
  (boundary_points_included chartC8 (F32.fin 1) (F32.fin (1/2))).1
    (by norm_num [chartC8, chart0, Chart.with_range, Chart.xScale, Chart.projI,
      Scale.linear, F32.add, F32.sub, F32.mul, F32.div, F32.neg, F32.round,
      F32.roundQ, F32.toU32sat]; omega)
    (by norm_num [chartC8, chart0, Chart.with_range, Chart.yScale, Chart.projJ,
      Scale.linear, F32.add, F32.sub, F32.mul, F32.div, F32.neg, F32.round,
      F32.roundQ, F32.toU32sat])

/-- C10 counterexample: in a unit-range 32x32 chart the point (-1, 2) has a
negative rounded scaled x (-32), so the claim as stated requires it to be
included (saturated to the x = 0 edge); it is excluded, because its rounded
scaled y (64) exceeds the height. -/
theorem negative_claim_cex :
    (Chart.with_range 32 32 (F32.fin 0) (F32.fin 1) (F32.fin 0) (F32.fin 1)).map
        (fun c => ((c.xScale.linear (F32.fin (-1))).round,
          c.projectPoint (F32.fin (-1), F32.fin 2))) =
      some (F32.fin (-32), none) := by
  norm_num [Chart.with_range, Chart.xScale, Chart.yScale, Chart.projI, Chart.projJ,
    Chart.projectPoint, Scale.linear, F32.add, F32.sub, F32.mul, F32.div, F32.neg,
    F32.round, F32.roundQ, F32.toU32sat]

/-- C10 (amended): a negative rounded scaled coordinate saturates to 0 in
the unsigned conversion and never causes exclusion by itself: the point is
included, clamped onto the corresponding canvas edge, provided its other
rounded coordinate is within bounds. -/
theorem negative_coordinate_saturates (c : Chart) (x y : F32) (q : ℚ) :
    ((c.xScale.linear x).round = F32.fin q → q < 0 →
      c.projI x = 0 ∧ (c.projJ y ≤ c.height →
        c.projectPoint (x, y) = some (0, c.height - c.projJ y))) ∧
    ((c.yScale.linear y).round = F32.fin q → q < 0 →
      c.projJ y = 0 ∧ (c.projI x ≤ c.width →
        c.projectPoint (x, y) = some (c.projI x, c.height))) := by
  have hproj : c.projectPoint (x, y) =
      if c.projI x ≤ c.width ∧ c.projJ y ≤ c.height then
        some (c.projI x, c.height - c.projJ y)
      else none := rfl
  constructor
  · intro hr hq
    have hi : c.projI x = 0 := by
      unfold Chart.projI; rw [hr]
      simp [F32.toU32sat, hq]
    refine ⟨hi, fun hj => ?_⟩
    rw [hproj, if_pos ⟨by rw [hi]; exact Nat.zero_le _, hj⟩, hi]
  · intro hr hq
    have hj : c.projJ y = 0 := by
      unfold Chart.projJ; rw [hr]
      simp [F32.toU32sat, hq]
    refine ⟨hj, fun hi => ?_⟩
    rw [hproj, if_pos ⟨hi, by rw [hj]; exact Nat.zero_le _⟩, hj]
    simp

/-- Witness for the amended saturation claim: in chartC10 the point
(-1, 1/2) has rounded scaled x equal to -32, saturates to 0, and is included
at canvas (0, 16). -/
theorem negative_coordinate_saturates_witness :
    chartC10.projI (F32.fin (-1)) = 0 ∧
      chartC10.projectPoint (F32.fin (-1), F32.fin (1/2)) =
        some (0, chartC10.height - chartC10.projJ (F32.fin (1/2))) := by
  have h := (negative_coordinate_saturates chartC10 (F32.fin (-1)) (F32.fin (1/2)) (-32)).1
    (by norm_num [chartC10, chart0, Chart.with_range, Chart.xScale, Scale.linear,
      F32.add, F32.sub, F32.mul, F32.div, F32.neg, F32.round, F32.roundQ])
    (by norm_num)
  exact ⟨h.1, h.2 (by norm_num [chartC10, chart0, Chart.with_range, Chart.yScale,
    Chart.projJ, Scale.linear, F32.add, F32.sub, F32.mul, F32.div, F32.neg,
    F32.round, F32.roundQ, F32.toU32sat])⟩

theorem stepsLoop_eq (col : Option RGB8) (l : List (Nat × Nat)) :
    stepsLoop col l = concatMap (specStepSegments col) (pairsOf l) := by
  induction l with
  | nil => rfl
  | cons a tl ih =>
    cases tl with
    | nil => rfl
    | cons b rest =>
      obtain ⟨x1, y1⟩ := a
      obtain ⟨x2, y2⟩ := b
      simp only [stepsLoop, pairsOf, concatMap, specStepSegments] at ih ⊢
      rw [ih]
      rfl

theorem barsLoop_eq (height : Nat) (col : Option RGB8) (l : List (Nat × Nat)) :
    barsLoop height col l = concatMap (specBarSegments height col) (pairsOf l) := by
  induction l with
  | nil => rfl
  | cons a tl ih =>
    cases tl with
    | nil => rfl
    | cons b rest =>
      obtain ⟨x1, y1⟩ := a
      obtain ⟨x2, y2⟩ := b
      simp only [barsLoop, pairsOf, concatMap, specBarSegments, specStepSegments] at ih ⊢
      rw [ih]
      rfl

/-- C9: for a Steps layer the drawing calls are, pair by consecutive pair
of included projected points, exactly the two segments the claim describes
(horizontal at the height of p2 from p1.x to p2.x, vertical at p1.x from p1.y to
p2.y); for a Bars layer they are exactly those two plus the two vertical
drop-lines from p1.x and p2.x down to the canvas bottom edge. -/
theorem steps_bars_segments (c : Chart) (col : Option RGB8) :
    c.figure Shape.steps col = concatMap (specStepSegments col) (pairsOf c.projectedPoints) ∧
    c.figure Shape.bars col = concatMap (specBarSegments c.height col) (pairsOf c.projectedPoints) :=
  ⟨stepsLoop_eq col c.projectedPoints, barsLoop_eq c.height col c.projectedPoints⟩

/-- C7: construction succeeds at the 32x32 minimum and fails with the
configuration error (a panic, modelled as none) whenever width < 32 or
height < 32, for both constructors. -/
theorem construction_size_check :
    ((Chart.new 32 32).isSome = true ∧
      ∀ a b d e : F32, (Chart.with_range 32 32 a b d e).isSome = true) ∧
    (∀ w h : Nat, w < 32 ∨ h < 32 →
      Chart.new w h = none ∧ ∀ a b d e : F32, Chart.with_range w h a b d e = none) := by
  constructor
  · constructor
    · rfl
    · intro a b d e; rfl
  · intro w h hor
    constructor
    · unfold Chart.new
      rcases hor with hw | hh
      · rw [if_pos hw]
      · by_cases hw : w < 32
        · rw [if_pos hw]
        · rw [if_neg hw, if_pos hh]
    · intro a b d e
      unfold Chart.with_range
      rcases hor with hw | hh
      · rw [if_pos hw]
      · by_cases hw : w < 32
        · rw [if_pos hw]
        · rw [if_neg hw, if_pos hh]

/-- Witness for the size check: width 31 and height 31 each fail. -/
theorem construction_size_check_witness :
    Chart.new 31 60 = none ∧
      Chart.with_range 60 31 (F32.fin 0) (F32.fin 1) (F32.fin 0) (F32.fin 1) = none :=
  ⟨(construction_size_check.2 31 60 (Or.inl (by norm_num))).1,
   (construction_size_check.2 60 31 (Or.inr (by norm_num))).2
     (F32.fin 0) (F32.fin 1) (F32.fin 0) (F32.fin 1)⟩

theorem applyOp_fixed (c : Chart) (op : Op)
    (hx : c.x_ranging = ChartRangeMethod.FixedRange)
    (hy : c.y_ranging = ChartRangeMethod.FixedRange) :
    (applyOp c op).xmin = c.xmin ∧ (applyOp c op).xmax = c.xmax ∧
    (applyOp c op).ymin = c.ymin ∧ (applyOp c op).ymax = c.ymax ∧
    (applyOp c op).x_ranging = ChartRangeMethod.FixedRange ∧
    (applyOp c op).y_ranging = ChartRangeMethod.FixedRange := by
  cases op with
  | setData pts => exact ⟨rfl, rfl, rfl, rfl, hx, hy⟩
  | addLayer s col =>
    simp only [applyOp, Chart.lineplot, hx, hy]
    simp [hx, hy]
  | hideAxis => exact ⟨rfl, rfl, rfl, rfl, hx, hy⟩

theorem applyOps_fixed (ops : List Op) :
    ∀ c : Chart, c.x_ranging = ChartRangeMethod.FixedRange →
      c.y_ranging = ChartRangeMethod.FixedRange →
      (applyOps c ops).xmin = c.xmin ∧ (applyOps c ops).xmax = c.xmax ∧
      (applyOps c ops).ymin = c.ymin ∧ (applyOps c ops).ymax = c.ymax ∧
      (applyOps c ops).x_ranging = ChartRangeMethod.FixedRange ∧
      (applyOps c ops).y_ranging = ChartRangeMethod.FixedRange := by
  induction ops with
  | nil => intro c hx hy; exact ⟨rfl, rfl, rfl, rfl, hx, hy⟩
  | cons op rest ih =>
    intro c hx hy
    obtain ⟨e1, e2, e3, e4, r1, r2⟩ := applyOp_fixed c op hx hy
    obtain ⟨f1, f2, f3, f4, s1, s2⟩ := ih (applyOp c op) r1 r2
    have hstep : applyOps c (op :: rest) = applyOps (applyOp c op) rest := rfl
    rw [hstep]
    exact ⟨f1.trans e1, f2.trans e2, f3.trans e3, f4.trans e4, s1, s2⟩

/-- C3: a chart constructed with a fixed range stores exactly the supplied
bounds, and they are unchanged after any sequence of set_data, lineplot and
hide_axis calls, regardless of dataset content. -/
theorem fixed_range_bounds_immutable (w h : Nat) (a b d e : F32) (ops : List Op)
    (ch : Chart) (hch : Chart.with_range w h a b d e = some ch) :
    (applyOps ch ops).xmin = a ∧ (applyOps ch ops).xmax = b ∧
    (applyOps ch ops).ymin = d ∧ (applyOps ch ops).ymax = e := by
  unfold Chart.with_range at hch
  by_cases hw : w < 32
  · rw [if_pos hw] at hch
    exact Option.noConfusion hch
  · rw [if_neg hw] at hch
    by_cases hh : h < 32
    · rw [if_pos hh] at hch
      exact Option.noConfusion hch
    · rw [if_neg hh] at hch
      have hrec := Option.some.inj hch
      subst hrec
      have hfix := applyOps_fixed ops
        { width := w, height := h, xmin := a, xmax := b,
          x_ranging := ChartRangeMethod.FixedRange, ymin := d, ymax := e,
          y_ranging := ChartRangeMethod.FixedRange, data_points := [],
          appearance := [], show_axis := true } rfl rfl
      exact ⟨hfix.1, hfix.2.1, hfix.2.2.1, hfix.2.2.2.1⟩

/-- Witness for the fixed-bounds claim, on chartC3 = with_range(32, 32, 1,
2, 3, 4) after a set_data and a lineplot call. -/
theorem fixed_range_bounds_immutable_witness :
    (applyOps chartC3 [Op.setData [(F32.fin 100, F32.fin 200)],
        Op.addLayer Shape.lines none]).xmin = F32.fin 1 ∧
      (applyOps chartC3 [Op.setData [(F32.fin 100, F32.fin 200)],
        Op.addLayer Shape.lines none]).xmax = F32.fin 2 ∧
      (applyOps chartC3 [Op.setData [(F32.fin 100, F32.fin 200)],
        Op.addLayer Shape.lines none]).ymin = F32.fin 3 ∧
      (applyOps chartC3 [Op.setData [(F32.fin 100, F32.fin 200)],
        Op.addLayer Shape.lines none]).ymax = F32.fin 4 :=
  fixed_range_bounds_immutable 32 32 (F32.fin 1) (F32.fin 2) (F32.fin 3) (F32.fin 4)
    [Op.setData [(F32.fin 100, F32.fin 200)], Op.addLayer Shape.lines none]
    chartC3 (by norm_num [chartC3, chart0, Chart.with_range])

theorem F32.fin_ne_nan (q : ℚ) : F32.fin q ≠ F32.nan := fun h => F32.noConfusion h

theorem F32.pinf_ne_nan : F32.pinf ≠ F32.nan := fun h => F32.noConfusion h

theorem F32.ninf_ne_nan : F32.ninf ≠ F32.nan := fun h => F32.noConfusion h

theorem F32.ble_refl (a : F32) (h : a ≠ F32.nan) : F32.ble a a = true := by
  cases a <;> simp_all [F32.ble]

theorem F32.ble_total (a b : F32) (ha : a ≠ F32.nan) (hb : b ≠ F32.nan) :
    F32.ble a b = true ∨ F32.ble b a = true := by
  cases a <;> cases b <;> simp_all [F32.ble]
  exact le_total _ _

theorem F32.ble_trans {a b c : F32} (h1 : F32.ble a b = true) (h2 : F32.ble b c = true) :
    F32.ble a c = true := by
  cases a <;> cases b <;> cases c <;> simp_all [F32.ble]
  exact le_trans h1 h2

theorem F32.fmin_ne_nan (a b : F32) (ha : a ≠ F32.nan) : F32.fmin a b ≠ F32.nan := by
  unfold F32.fmin
  split_ifs with h1 h2 h3 <;> simp_all

theorem F32.fmax_ne_nan (a b : F32) (ha : a ≠ F32.nan) : F32.fmax a b ≠ F32.nan := by
  unfold F32.fmax
  split_ifs with h1 h2 h3 <;> simp_all

theorem F32.ble_fmin_left (a b : F32) (ha : a ≠ F32.nan) :
    F32.ble (F32.fmin a b) a = true := by
  unfold F32.fmin
  split_ifs with h1 h2 h3
  · exact absurd h1 ha
  · exact F32.ble_refl a ha
  · exact F32.ble_refl a ha
  · rcases F32.ble_total a b ha h2 with h | h
    · exact absurd h h3
    · exact h

theorem F32.ble_fmax_left (a b : F32) (ha : a ≠ F32.nan) :
    F32.ble a (F32.fmax a b) = true := by
  unfold F32.fmax
  split_ifs with h1 h2 h3
  · exact absurd h1 ha
  · exact F32.ble_refl a ha
  · exact F32.ble_refl a ha
  · rcases F32.ble_total a b ha h2 with h | h
    · exact h
    · exact absurd h h3

theorem rescale_x_bounds (c : Chart) (h1 : c.xmin ≠ F32.nan) (h2 : c.xmax ≠ F32.nan) :
    F32.ble c.rescale_x.xmin c.xmin = true ∧ F32.ble c.xmax c.rescale_x.xmax = true ∧
    c.rescale_x.xmin ≠ F32.nan ∧ c.rescale_x.xmax ≠ F32.nan ∧
    c.rescale_x.ymin = c.ymin ∧ c.rescale_x.ymax = c.ymax := by
  exact ⟨F32.ble_fmin_left _ _ h1, F32.ble_fmax_left _ _ h2,
    F32.fmin_ne_nan _ _ h1, F32.fmax_ne_nan _ _ h2, rfl, rfl⟩

theorem rescale_y_bounds (c : Chart) (h3 : c.ymin ≠ F32.nan) (h4 : c.ymax ≠ F32.nan) :
    F32.ble c.rescale_y.ymin c.ymin = true ∧ F32.ble c.ymax c.rescale_y.ymax = true ∧
    c.rescale_y.ymin ≠ F32.nan ∧ c.rescale_y.ymax ≠ F32.nan ∧
    c.rescale_y.xmin = c.xmin ∧ c.rescale_y.xmax = c.xmax := by
  exact ⟨F32.ble_fmin_left _ _ h3, F32.ble_fmax_left _ _ h4,
    F32.fmin_ne_nan _ _ h3, F32.fmax_ne_nan _ _ h4, rfl, rfl⟩

theorem applyOp_bounds_mono (c : Chart) (op : Op)
    (h1 : c.xmin ≠ F32.nan) (h2 : c.xmax ≠ F32.nan)
    (h3 : c.ymin ≠ F32.nan) (h4 : c.ymax ≠ F32.nan) :
    F32.ble (applyOp c op).xmin c.xmin = true ∧
    F32.ble c.xmax (applyOp c op).xmax = true ∧
    F32.ble (applyOp c op).ymin c.ymin = true ∧
    F32.ble c.ymax (applyOp c op).ymax = true ∧
    (applyOp c op).xmin ≠ F32.nan ∧ (applyOp c op).xmax ≠ F32.nan ∧
    (applyOp c op).ymin ≠ F32.nan ∧ (applyOp c op).ymax ≠ F32.nan := by
  cases op with
  | setData pts =>
    exact ⟨F32.ble_refl _ h1, F32.ble_refl _ h2, F32.ble_refl _ h3, F32.ble_refl _ h4,
      h1, h2, h3, h4⟩
  | hideAxis =>
    exact ⟨F32.ble_refl _ h1, F32.ble_refl _ h2, F32.ble_refl _ h3, F32.ble_refl _ h4,
      h1, h2, h3, h4⟩
  | addLayer s col =>
    obtain ⟨cw, chg, cxmin, cxmax, cxr, cymin, cymax, cyr, cdp, cap, csa⟩ := c
    dsimp only at h1 h2 h3 h4
    cases cxr <;> cases cyr <;>
      simp only [applyOp, Chart.lineplot, Chart.rescale_x, Chart.rescale_y,
        reduceCtorEq, if_true, if_false, ite_true, ite_false,
        not_false_eq_true, not_true_eq_false] <;>
      refine ⟨?_, ?_, ?_, ?_, ?_, ?_, ?_, ?_⟩ <;>
      first
        | exact F32.ble_refl _ h1
        | exact F32.ble_refl _ h2
        | exact F32.ble_refl _ h3
        | exact F32.ble_refl _ h4
        | exact F32.ble_fmin_left _ _ h1
        | exact F32.ble_fmax_left _ _ h2
        | exact F32.ble_fmin_left _ _ h3
        | exact F32.ble_fmax_left _ _ h4
        | exact F32.fmin_ne_nan _ _ h1
        | exact F32.fmax_ne_nan _ _ h2
        | exact F32.fmin_ne_nan _ _ h3
        | exact F32.fmax_ne_nan _ _ h4
        | exact h1
        | exact h2
        | exact h3
        | exact h4

theorem applyOps_bounds_mono (ops : List Op) :
    ∀ c : Chart, c.xmin ≠ F32.nan → c.xmax ≠ F32.nan →
      c.ymin ≠ F32.nan → c.ymax ≠ F32.nan →
      (F32.ble (applyOps c ops).xmin c.xmin = true ∧
       F32.ble c.xmax (applyOps c ops).xmax = true ∧
       F32.ble (applyOps c ops).ymin c.ymin = true ∧
       F32.ble c.ymax (applyOps c ops).ymax = true ∧
       (applyOps c ops).xmin ≠ F32.nan ∧ (applyOps c ops).xmax ≠ F32.nan ∧
       (applyOps c ops).ymin ≠ F32.nan ∧ (applyOps c ops).ymax ≠ F32.nan) := by
  induction ops with
  | nil =>
    intro c h1 h2 h3 h4
    exact ⟨F32.ble_refl _ h1, F32.ble_refl _ h2, F32.ble_refl _ h3, F32.ble_refl _ h4,
      h1, h2, h3, h4⟩
  | cons op rest ih =>
    intro c h1 h2 h3 h4
    obtain ⟨p1, p2, p3, p4, p5, p6, p7, p8⟩ := applyOp_bounds_mono c op h1 h2 h3 h4
    obtain ⟨q1, q2, q3, q4, q5, q6, q7, q8⟩ := ih (applyOp c op) p5 p6 p7 p8
    have hstep : applyOps c (op :: rest) = applyOps (applyOp c op) rest := rfl
    rw [hstep]
    exact ⟨F32.ble_trans q1 p1, F32.ble_trans p2 q2,
      F32.ble_trans q3 p3, F32.ble_trans p4 q4, q5, q6, q7, q8⟩

theorem applyOps_append (c : Chart) (ops1 ops2 : List Op) :
    applyOps c (ops1 ++ ops2) = applyOps (applyOps c ops1) ops2 :=
  List.foldl_append applyOp c ops1 ops2

/-- C4: for a chart whose axes are auto-ranged (built by Chart::new), along
any operation sequence extended by any further operations, xmin never
increases and xmax never decreases (and likewise for y) in the IEEE order:
auto bounds only widen over the lifetime of the chart. -/
theorem auto_bounds_never_contract (w h : Nat) (ch : Chart)
    (hch : Chart.new w h = some ch) (ops1 ops2 : List Op) :
    F32.ble (applyOps ch (ops1 ++ ops2)).xmin (applyOps ch ops1).xmin = true ∧
    F32.ble (applyOps ch ops1).xmax (applyOps ch (ops1 ++ ops2)).xmax = true ∧
    F32.ble (applyOps ch (ops1 ++ ops2)).ymin (applyOps ch ops1).ymin = true ∧
    F32.ble (applyOps ch ops1).ymax (applyOps ch (ops1 ++ ops2)).ymax = true := by
  have hbase : ch.xmin ≠ F32.nan ∧ ch.xmax ≠ F32.nan ∧
      ch.ymin ≠ F32.nan ∧ ch.ymax ≠ F32.nan := by
    unfold Chart.new at hch
    by_cases hw : w < 32
    · rw [if_pos hw] at hch; exact Option.noConfusion hch
    · rw [if_neg hw] at hch
      by_cases hhg : h < 32
      · rw [if_pos hhg] at hch; exact Option.noConfusion hch
      · rw [if_neg hhg] at hch
        have hrec := Option.some.inj hch
        subst hrec
        refine ⟨?_, ?_, ?_, ?_⟩ <;> simp
  obtain ⟨b1, b2, b3, b4⟩ := hbase
  obtain ⟨-, -, -, -, m5, m6, m7, m8⟩ := applyOps_bounds_mono ops1 ch b1 b2 b3 b4
  obtain ⟨r1, r2, r3, r4, -, -, -, -⟩ :=
    applyOps_bounds_mono ops2 (applyOps ch ops1) m5 m6 m7 m8
  rw [applyOps_append]
  exact ⟨r1, r2, r3, r4⟩

/-- Witness for the auto-range monotonicity claim: a fresh 32x32 chart,
first given a one-point dataset and a layer, then an empty dataset and
another layer. -/
theorem auto_bounds_never_contract_witness :
    F32.ble (applyOps chartC4 ([Op.setData [(F32.fin 7, F32.fin 8)],
        Op.addLayer Shape.lines none] ++ [Op.setData [], Op.addLayer Shape.points none])).xmin
      (applyOps chartC4 [Op.setData [(F32.fin 7, F32.fin 8)],
        Op.addLayer Shape.lines none]).xmin = true ∧
    F32.ble (applyOps chartC4 [Op.setData [(F32.fin 7, F32.fin 8)],
        Op.addLayer Shape.lines none]).xmax
      (applyOps chartC4 ([Op.setData [(F32.fin 7, F32.fin 8)],
        Op.addLayer Shape.lines none] ++ [Op.setData [], Op.addLayer Shape.points none])).xmax = true ∧
    F32.ble (applyOps chartC4 ([Op.setData [(F32.fin 7, F32.fin 8)],
        Op.addLayer Shape.lines none] ++ [Op.setData [], Op.addLayer Shape.points none])).ymin
      (applyOps chartC4 [Op.setData [(F32.fin 7, F32.fin 8)],
        Op.addLayer Shape.lines none]).ymin = true ∧
    F32.ble (applyOps chartC4 [Op.setData [(F32.fin 7, F32.fin 8)],
        Op.addLayer Shape.lines none]).ymax
      (applyOps chartC4 ([Op.setData [(F32.fin 7, F32.fin 8)],
        Op.addLayer Shape.lines none] ++ [Op.setData [], Op.addLayer Shape.points none])).ymax = true :=
  auto_bounds_never_contract 32 32 chartC4 (by norm_num [chartC4, chart0, Chart.new])
    [Op.setData [(F32.fin 7, F32.fin 8)], Op.addLayer Shape.lines none]
    [Op.setData [], Op.addLayer Shape.points none]

/-- C5: on a fresh auto-ranging chart, setting the dataset
[(-5, 3), (3.3, 2), (10, 6)] and adding one layer yields bounds
xmin = -5, xmax = 10, ymin = 2, ymax = 6 exactly (3.3 entering as the exact
rational 33/10, which is only compared, never rounded, by the rescale). -/
theorem auto_range_concrete_example (w h : Nat) (ch : Chart)
    (hch : Chart.new w h = some ch) (s : Shape) (col : Option RGB8) :
    ((ch.data [(F32.fin (-5), F32.fin 3), (F32.fin (33/10), F32.fin 2),
        (F32.fin 10, F32.fin 6)]).lineplot s col).xmin = F32.fin (-5) ∧
    ((ch.data [(F32.fin (-5), F32.fin 3), (F32.fin (33/10), F32.fin 2),
        (F32.fin 10, F32.fin 6)]).lineplot s col).xmax = F32.fin 10 ∧
    ((ch.data [(F32.fin (-5), F32.fin 3), (F32.fin (33/10), F32.fin 2),
        (F32.fin 10, F32.fin 6)]).lineplot s col).ymin = F32.fin 2 ∧
    ((ch.data [(F32.fin (-5), F32.fin 3), (F32.fin (33/10), F32.fin 2),
        (F32.fin 10, F32.fin 6)]).lineplot s col).ymax = F32.fin 6 := by
  unfold Chart.new at hch
  by_cases hw : w < 32
  · rw [if_pos hw] at hch; exact Option.noConfusion hch
  · rw [if_neg hw] at hch
    by_cases hhg : h < 32
    · rw [if_pos hhg] at hch; exact Option.noConfusion hch
    · rw [if_neg hhg] at hch
      have hrec := Option.some.inj hch
      subst hrec
      have s1 : F32.fmin F32.pinf (F32.fin (-5)) = F32.fin (-5) := by
        norm_num [F32.fmin, F32.ble, F32.fin_ne_nan, F32.pinf_ne_nan, F32.ninf_ne_nan]
      have s2 : F32.fmin (F32.fin (-5)) (F32.fin (33/10)) = F32.fin (-5) := by
        norm_num [F32.fmin, F32.ble, F32.fin_ne_nan, F32.pinf_ne_nan, F32.ninf_ne_nan, decide_eq_true_eq]
      have s3 : F32.fmin (F32.fin (-5)) (F32.fin 10) = F32.fin (-5) := by
        norm_num [F32.fmin, F32.ble, F32.fin_ne_nan, F32.pinf_ne_nan, F32.ninf_ne_nan, decide_eq_true_eq]
      have t1 : F32.fmax F32.ninf (F32.fin (-5)) = F32.fin (-5) := by
        norm_num [F32.fmax, F32.ble, F32.fin_ne_nan, F32.pinf_ne_nan, F32.ninf_ne_nan]
      have t2 : F32.fmax (F32.fin (-5)) (F32.fin (33/10)) = F32.fin (33/10) := by
        norm_num [F32.fmax, F32.ble, F32.fin_ne_nan, F32.pinf_ne_nan, F32.ninf_ne_nan, decide_eq_true_eq]
      have t3 : F32.fmax (F32.fin (33/10)) (F32.fin 10) = F32.fin 10 := by
        norm_num [F32.fmax, F32.ble, F32.fin_ne_nan, F32.pinf_ne_nan, F32.ninf_ne_nan, decide_eq_true_eq]
      have t4 : F32.fmax F32.ninf (F32.fin 10) = F32.fin 10 := by
        norm_num [F32.fmax, F32.ble, F32.fin_ne_nan, F32.pinf_ne_nan, F32.ninf_ne_nan]
      have u1 : F32.fmin F32.pinf (F32.fin 3) = F32.fin 3 := by
        norm_num [F32.fmin, F32.ble, F32.fin_ne_nan, F32.pinf_ne_nan, F32.ninf_ne_nan]
      have u2 : F32.fmin (F32.fin 3) (F32.fin 2) = F32.fin 2 := by
        norm_num [F32.fmin, F32.ble, F32.fin_ne_nan, F32.pinf_ne_nan, F32.ninf_ne_nan, decide_eq_true_eq]
      have u3 : F32.fmin (F32.fin 2) (F32.fin 6) = F32.fin 2 := by
        norm_num [F32.fmin, F32.ble, F32.fin_ne_nan, F32.pinf_ne_nan, F32.ninf_ne_nan, decide_eq_true_eq]
      have u4 : F32.fmin F32.pinf (F32.fin 2) = F32.fin 2 := by
        norm_num [F32.fmin, F32.ble, F32.fin_ne_nan, F32.pinf_ne_nan, F32.ninf_ne_nan]
      have v1 : F32.fmax F32.ninf (F32.fin 3) = F32.fin 3 := by
        norm_num [F32.fmax, F32.ble, F32.fin_ne_nan, F32.pinf_ne_nan, F32.ninf_ne_nan]
      have v2 : F32.fmax (F32.fin 3) (F32.fin 2) = F32.fin 3 := by
        norm_num [F32.fmax, F32.ble, F32.fin_ne_nan, F32.pinf_ne_nan, F32.ninf_ne_nan, decide_eq_true_eq]
      have v3 : F32.fmax (F32.fin 3) (F32.fin 6) = F32.fin 6 := by
        norm_num [F32.fmax, F32.ble, F32.fin_ne_nan, F32.pinf_ne_nan, F32.ninf_ne_nan, decide_eq_true_eq]
      have v4 : F32.fmax F32.ninf (F32.fin 6) = F32.fin 6 := by
        norm_num [F32.fmax, F32.ble, F32.fin_ne_nan, F32.pinf_ne_nan, F32.ninf_ne_nan]
      refine ⟨?_, ?_, ?_, ?_⟩ <;>
        simp only [Chart.data, Chart.lineplot, Chart.rescale_x, Chart.rescale_y,
          List.map_cons, List.map_nil, List.foldl_cons, List.foldl_nil, reduceIte,
          reduceCtorEq, s1, s2, s3, t1, t2, t3, t4, u1, u2, u3, u4, v1, v2, v3, v4]

/-- Witness for the concrete auto-range example, on a fresh 120x60 chart. -/
theorem auto_range_concrete_example_witness :
    ((chartC5.data [(F32.fin (-5), F32.fin 3), (F32.fin (33/10), F32.fin 2),
        (F32.fin 10, F32.fin 6)]).lineplot Shape.lines none).xmin = F32.fin (-5) ∧
    ((chartC5.data [(F32.fin (-5), F32.fin 3), (F32.fin (33/10), F32.fin 2),
        (F32.fin 10, F32.fin 6)]).lineplot Shape.lines none).xmax = F32.fin 10 ∧
    ((chartC5.data [(F32.fin (-5), F32.fin 3), (F32.fin (33/10), F32.fin 2),
        (F32.fin 10, F32.fin 6)]).lineplot Shape.lines none).ymin = F32.fin 2 ∧
    ((chartC5.data [(F32.fin (-5), F32.fin 3), (F32.fin (33/10), F32.fin 2),
        (F32.fin 10, F32.fin 6)]).lineplot Shape.lines none).ymax = F32.fin 6 :=
  auto_range_concrete_example 120 60 chartC5
    (by norm_num [chartC5, chart0, Chart.new]) Shape.lines none

/-- C6: adding a layer to a fresh auto-ranging chart before any data has
been set leaves all four bounds at the no-data sentinels (+inf for the
minima, -inf for the maxima), and a set_data call on any chart never
changes any bound by itself. -/
theorem lineplot_before_data (w h : Nat) (ch : Chart)
    (hch : Chart.new w h = some ch) (s : Shape) (col : Option RGB8) :
    ((ch.lineplot s col).xmin = F32.pinf ∧ (ch.lineplot s col).xmax = F32.ninf ∧
     (ch.lineplot s col).ymin = F32.pinf ∧ (ch.lineplot s col).ymax = F32.ninf) ∧
    ∀ (d : Chart) (pts : List (F32 × F32)),
      (d.data pts).xmin = d.xmin ∧ (d.data pts).xmax = d.xmax ∧
      (d.data pts).ymin = d.ymin ∧ (d.data pts).ymax = d.ymax := by
  constructor
  · unfold Chart.new at hch
    by_cases hw : w < 32
    · rw [if_pos hw] at hch; exact Option.noConfusion hch
    · rw [if_neg hw] at hch
      by_cases hhg : h < 32
      · rw [if_pos hhg] at hch; exact Option.noConfusion hch
      · rw [if_neg hhg] at hch
        have hrec := Option.some.inj hch
        subst hrec
        refine ⟨?_, ?_, ?_, ?_⟩ <;>
          norm_num [Chart.lineplot, Chart.rescale_x, Chart.rescale_y,
            F32.fmin, F32.fmax, F32.ble, reduceCtorEq, decide_eq_true_eq]
  · intro d pts
    exact ⟨rfl, rfl, rfl, rfl⟩

/-- Witness for the layer-before-data claim, on a fresh 32x32 chart with a
Points layer and then a one-point dataset. -/
theorem lineplot_before_data_witness :
    ((chartC6.lineplot Shape.points none).xmin = F32.pinf ∧
     (chartC6.lineplot Shape.points none).xmax = F32.ninf ∧
     (chartC6.lineplot Shape.points none).ymin = F32.pinf ∧
     (chartC6.lineplot Shape.points none).ymax = F32.ninf) ∧
    ∀ (d : Chart) (pts : List (F32 × F32)),
      (d.data pts).xmin = d.xmin ∧ (d.data pts).xmax = d.xmax ∧
      (d.data pts).ymin = d.ymin ∧ (d.data pts).ymax = d.ymax :=
  lineplot_before_data 32 32 chartC6
    (by norm_num [chartC6, chart0, Chart.new]) Shape.points none

end Conplot
